import Mathlib

/-!
# Verification of the Appcup retrieval pipeline

Shallow embedding of the algorithmic core of the repository: the chunker
(`chunkText` in `src/ingest.mjs` and `src/ingest_local.mjs`), the ingestion
chunk loop (`src/ingest.mjs`, `main`), cosine similarity in both of its
variants (`src/search.js` and `src/ingest_local.mjs`), the retrieval
fallback chain (`src/search.js`, `queryCollection`), and the context
formatter (`src/lib/retrieval.mjs`, `formatContextForPrompt`).

JS strings are modelled as `List Char` or `String` (the inputs of interest
are ASCII, so UTF-16 code units and code points coincide); JS numbers are
modelled as elements of a linear ordered field, with `Math.sqrt` passed in
as an explicit function parameter so that the definitions stay executable;
external calls (embedding service, Qdrant index, local file store) are
modelled by their outcomes, passed in as `Except`/`Option` values.
-/

namespace Ingest

/-- Fuel-indexed embedding of the `while (start < text.length)` loop of
`chunkText` (src/ingest.mjs lines 60-68, identical in src/ingest_local.mjs
lines 21-29).  Each iteration pushes `text.slice(start, Math.min(start +
chunkSize, text.length))` and advances `start` by `chunkSize - overlap`
(natural subtraction: for `overlap ≥ chunkSize` the JS cursor does not make
forward progress and the loop never terminates, which the model reports as
fuel exhaustion).  `none` models a run that has not terminated within the
given fuel. -/
def chunkTextGo (text : List Char) (chunkSize overlap : Nat) :
    Nat → Nat → Option (List (List Char))
  | 0, _ => none
  | fuel + 1, start =>
    if start < text.length then
      Option.map
        (fun rest =>
          (text.drop start).take (min (start + chunkSize) text.length - start) :: rest)
        (chunkTextGo text chunkSize overlap fuel (start + (chunkSize - overlap)))
    else
      some []

/-- `chunkText(text, chunkSize, overlap)` from src/ingest.mjs lines 60-68
(defaults `chunkSize = 300`, `overlap = 50`).  `text.length + 1` units of
fuel are enough for every terminating run of the source loop (the cursor
advances by at least one per iteration whenever `overlap < chunkSize`), so
`none` is returned exactly when the JS loop diverges. -/
def chunkText (text : List Char) (chunkSize overlap : Nat) :
    Option (List (List Char)) :=
  chunkTextGo text chunkSize overlap (text.length + 1) 0

/-- The `(start, sliceLength)` ranges the loop of `chunkText` walks through,
as a structurally terminating function: defined (non-trivially) only on the
`overlap < chunkSize` domain where the source loop terminates. -/
def chunkRangesFrom (len chunkSize overlap : Nat) (start : Nat) :
    List (Nat × Nat) :=
  if _h : 0 < chunkSize - overlap ∧ start < len then
    (start, min (start + chunkSize) len - start) ::
      chunkRangesFrom len chunkSize overlap (start + (chunkSize - overlap))
  else
    []
termination_by len - start
decreasing_by
  omega

/-- All chunk ranges of a text of length `len`. -/
def chunkRanges (len chunkSize overlap : Nat) : List (Nat × Nat) :=
  chunkRangesFrom len chunkSize overlap 0

/-- The substring of `text` described by a `(start, length)` range. -/
def sliceAt (text : List Char) (r : Nat × Nat) : List Char :=
  (text.drop r.1).take r.2

/-- A point staged for upload by the ingestion loop (src/ingest.mjs lines
122-133): `id` is the value of the global counter at staging time and the
payload keeps the chunk text and its index within the document. -/
structure QdrantPoint where
  id : Nat
  vector : List ℚ
  title : String
  content : String
  chunkIndex : Nat
deriving DecidableEq

/-- Running state of the ingestion chunk loop of src/ingest.mjs `main`: the
global success counter, the staged points, and the number of per-chunk
`console.error` failure logs. -/
structure IngestState where
  counter : Nat
  points : List QdrantPoint
  failed : Nat
deriving DecidableEq

/-- The per-chunk loop of `main` (src/ingest.mjs lines 117-139): each chunk
is embedded (`embed` gives the outcome of the `embedContent` call on a
chunk's text); on success a point is pushed and the counter incremented, on
error the failure is logged (`failed` incremented) and the loop continues
with the next chunk — the `try/catch` is per chunk, so no failure aborts the
run. -/
def ingestChunksFrom (embed : String → Except String (List ℚ))
    (title : String) : Nat → IngestState → List String → IngestState
  | _, st, [] => st
  | i, st, chunk :: rest =>
    match embed chunk with
    | Except.ok v =>
      ingestChunksFrom embed title (i + 1)
        { counter := st.counter + 1
          points := st.points ++
            [{ id := st.counter, vector := v, title := title,
               content := chunk, chunkIndex := i }]
          failed := st.failed } rest
    | Except.error _ =>
      ingestChunksFrom embed title (i + 1)
        { st with failed := st.failed + 1 } rest

/-- One document's pass through the chunk loop, from a fresh state. -/
def ingestDocument (embed : String → Except String (List ℚ)) (title : String)
    (chunks : List String) : IngestState :=
  ingestChunksFrom embed title 0 ⟨0, [], 0⟩ chunks

/-- The bulk upload of src/ingest.mjs lines 192-197: the staged points are
uploaded in one `upload_points` call when there is at least one; zero staged
points only logs a warning and uploads nothing (`none`). -/
def uploadPoints (pts : List QdrantPoint) : Option (List QdrantPoint) :=
  if pts.length > 0 then some pts else none

/-- Whether the embedding call on a chunk succeeds. -/
def embedOk (embed : String → Except String (List ℚ)) (c : String) : Bool :=
  match embed c with
  | Except.ok _ => true
  | Except.error _ => false

end Ingest

/-- `vec.reduce((s, a) => s + a * a, 0)`: the sum of squares fed to the
`Math.sqrt` calls of src/search.js lines 189-190 and src/ingest_local.mjs
lines 129-130.  The JS reduce accumulates left to right; by associativity
and commutativity of addition the structural recursion computes the same
sum. -/
def sumSq {K : Type} [LinearOrderedField K] : List K → K
  | [] => 0
  | a :: as => a * a + sumSq as

namespace Search

/-- `vecA.reduce((sum, a, i) => sum + a * (vecB[i] ?? 0), 0)` from
src/search.js line 188: the dot product walks the entries of `vecA`,
reading a missing entry of `vecB` as `0` (the `?? 0`).  As with `sumSq`,
the left-to-right reduce is rendered as a structural recursion with the
same value. -/
def dotJS {K : Type} [LinearOrderedField K] : List K → List K → K
  | [], _ => 0
  | a :: as, [] => a * 0 + dotJS as []
  | a :: as, b :: bs => a * b + dotJS as bs

/-- `cosineSimilarity(vecA, vecB)` from src/search.js lines 187-193.
`Math.sqrt` is passed as the parameter `sqrt`.  The guard
`if (!magA || !magB) return 0` tests the magnitudes for zero (the only
falsy value a magnitude takes in the idealized real model). -/
def cosineSimilarity {K : Type} [LinearOrderedField K] [DecidableEq K]
    (sqrt : K → K) (vecA vecB : List K) : K :=
  let dot := dotJS vecA vecB
  let magA := sqrt (sumSq vecA)
  let magB := sqrt (sumSq vecB)
  if magA = 0 ∨ magB = 0 then 0 else dot / (magA * magB)

/-- The fallback tiers the `queryCollection` state machine of src/search.js
walks through. -/
inductive Tier where
  | vectorSearch
  | textFilter
  | localFallback
deriving DecidableEq

/-- A record of `embeddings/all_embeddings.json` as read by
`loadLocalEmbeddings` (src/search.js lines 175-185; the file is written by
src/ingest_local.mjs). -/
structure LocalRec where
  id : String
  embedding : List ℚ
  document : String
deriving DecidableEq

/-- The outcomes of the external calls a single `queryCollection` run can
make: the embed-plus-vector-search of src/search.js lines 33-41 (an error
in either step is one raised error), the scroll request issued inside
`textFilterSearch` (lines 137-147), the local store load
(`loadLocalEmbeddings`, `none` when `embeddings/all_embeddings.json` is
absent or unreadable), and the query embedding made by
`queryLocalEmbeddings` (line 202). -/
structure SearchEnv (H : Type) where
  vectorResult : Except String (List H)
  textFilterPoints : Except String (List H)
  localStore : Option (List LocalRec)
  localQueryVec : Except String (List ℚ)

/-- `textFilterSearch` (src/search.js lines 134-170): any error raised
inside is caught and an empty list returned; an empty scroll returns `[]`
as well, otherwise the points are returned. -/
def textFilterSearch {H : Type} (env : SearchEnv H) : List H :=
  match env.textFilterPoints with
  | Except.error _ => []
  | Except.ok pts => pts

/-- `queryLocalEmbeddings` (src/search.js lines 195-224): an absent local
store logs a notice and returns without results; otherwise the query is
embedded (an error here propagates to the caller's catch) and every local
record is scored by cosine similarity against the query vector, sorted by
descending score, and the top `topK` kept. -/
def queryLocalEmbeddings {H : Type} (sqrt : ℚ → ℚ) (env : SearchEnv H)
    (topK : Nat) : Except String (List (ℚ × LocalRec)) :=
  match env.localStore with
  | none => Except.ok []
  | some recs =>
    match env.localQueryVec with
    | Except.error e => Except.error e
    | Except.ok qv =>
      Except.ok
        (((recs.map (fun e => (cosineSimilarity sqrt qv e.embedding, e))).mergeSort
            (fun x y => decide (y.1 ≤ x.1))).take topK)

/-- What a `queryCollection` run ends with: dense vector hits, text-filter
hits, locally ranked hits, or a caught error (the body's `try/catch` logs
the error message instead of crashing). -/
inductive RunOutcome (H : Type) where
  | dense (hits : List H)
  | filtered (hits : List H)
  | localRanked (hits : List (ℚ × LocalRec))
  | caught (msg : String)

/-- `queryCollection` (src/search.js lines 27-70) as a state machine over
the fallback tiers: vector search first; on zero dense hits the text
filter; on zero filtered hits the local fallback.  Returns the tiers
attempted, in order, together with the terminal outcome. -/
def queryCollection {H : Type} (sqrt : ℚ → ℚ) (env : SearchEnv H) :
    List Tier × RunOutcome H :=
  match env.vectorResult with
  | Except.error e => ([Tier.vectorSearch], RunOutcome.caught e)
  | Except.ok results =>
    if results.length = 0 then
      let filtered := textFilterSearch env
      if filtered.length = 0 then
        match queryLocalEmbeddings sqrt env 5 with
        | Except.error e =>
          ([Tier.vectorSearch, Tier.textFilter, Tier.localFallback],
            RunOutcome.caught e)
        | Except.ok ranked =>
          ([Tier.vectorSearch, Tier.textFilter, Tier.localFallback],
            RunOutcome.localRanked ranked)
      else
        ([Tier.vectorSearch, Tier.textFilter], RunOutcome.filtered filtered)
    else
      ([Tier.vectorSearch], RunOutcome.dense results)

end Search

namespace IngestLocal

/-- `vecA.reduce((sum, a, i) => sum + a * vecB[i], 0)` from
src/ingest_local.mjs line 128 — unlike the src/search.js variant there is
no `?? 0`: reading past the end of `vecB` gives `undefined` and poisons the
whole sum with `NaN`, modelled by `none`. -/
def dotLocal {K : Type} [LinearOrderedField K] (vecA vecB : List K) :
    Option K :=
  if vecA.length ≤ vecB.length then some (Search.dotJS vecA vecB) else none

/-- `cosineSimilarity(vecA, vecB)` from src/ingest_local.mjs lines 127-132.
This variant has no zero-magnitude guard: when
`magnitudeA * magnitudeB = 0` the IEEE division produces a non-finite value
(`NaN` for `0/0`, `±Infinity` otherwise), modelled by `none`. -/
def cosineSimilarity {K : Type} [LinearOrderedField K] [DecidableEq K]
    (sqrt : K → K) (vecA vecB : List K) : Option K :=
  match dotLocal vecA vecB with
  | none => none
  | some dot =>
    let magA := sqrt (sumSq vecA)
    let magB := sqrt (sumSq vecB)
    if magA * magB = 0 then none else some (dot / (magA * magB))

end IngestLocal

namespace Retrieval

/-- A hit as produced by `retrieveTopK` (src/lib/retrieval.mjs lines
36-44): the payload fields may be absent (`undefined` in JS), modelled with
`Option`; `score` comes back numeric from the index service. -/
structure SearchHit where
  title : Option String
  content : Option String
  chunkIndex : Option Nat
  score : ℚ
deriving DecidableEq

/-- Three-digit zero-padded rendering of `n < 1000`. -/
def padTo3 (n : Nat) : String :=
  if n < 10 then "00" ++ toString n
  else if n < 100 then "0" ++ toString n
  else toString n

/-- `score.toFixed(3)`: the score rounded to three decimal places and
rendered with exactly three digits after the point (the rounding mode of
IEEE `toFixed` is approximated by rational rounding; no claim depends on
the rendered digits). -/
def scoreToFixed3 (q : ℚ) : String :=
  let m : Int := round (q * 1000)
  (if m < 0 then "-" else "") ++ toString (m.natAbs / 1000) ++ "." ++
    padTo3 (m.natAbs % 1000)

/-- `h.title || "Untitled"`: an absent or empty (falsy) title renders as
`"Untitled"`. -/
def titleDisplay : Option String → String
  | none => "Untitled"
  | some t => if t = "" then "Untitled" else t

/-- `h.chunkIndex ?? "?"`: only a nullish chunk index renders as `"?"`. -/
def chunkIndexDisplay : Option Nat → String
  | none => "?"
  | some n => toString n

/-- `h.content || ""`: an absent content renders as the empty string (an
empty content is already the empty string). -/
def contentDisplay : Option String → String
  | none => ""
  | some c => c

/-- One block of `formatContextForPrompt` (src/lib/retrieval.mjs lines
49-52): the header line followed by the chunk's content. -/
def hitBlock (i : Nat) (h : SearchHit) : String :=
  "Source " ++ toString (i + 1) ++ " — " ++ titleDisplay h.title ++
    " (chunk " ++ chunkIndexDisplay h.chunkIndex ++ ", score " ++
    scoreToFixed3 h.score ++ ")" ++ "\n" ++ contentDisplay h.content

/-- `formatContextForPrompt(hits)` from src/lib/retrieval.mjs lines 47-54:
empty input yields the empty string; otherwise the blocks are joined by the
blank-line-delimited separator. -/
def formatContextForPrompt (hits : List SearchHit) : String :=
  if hits.length = 0 then ""
  else
    String.intercalate "\n\n---\n\n"
      (hits.enum.map (fun p => hitBlock p.1 p.2))

end Retrieval

/-- The 33-character sentence of the spec's chunking scenario. -/
def mauSentence : List Char := "Mauritius has beautiful beaches. ".toList

/-- `"Mauritius has beautiful beaches. "` repeated 20 times (660 chars). -/
def mauText : List Char := (List.replicate 20 mauSentence).flatten

/-! ## Support lemmas for the chunker -/

namespace Ingest

theorem chunkTextGo_eq_ranges (text : List Char) (chunkSize overlap : Nat)
    (h : overlap < chunkSize) :
    ∀ fuel start, text.length - start < fuel →
      chunkTextGo text chunkSize overlap fuel start =
        some ((chunkRangesFrom text.length chunkSize overlap start).map
          (sliceAt text)) := by
  intro fuel
  induction fuel with
  | zero => intro start hs; omega
  | succ fuel ih =>
    intro start hs
    rw [chunkTextGo, chunkRangesFrom]
    by_cases hlt : start < text.length
    · have hstep : 0 < chunkSize - overlap := by omega
      rw [if_pos hlt, dif_pos ⟨hstep, hlt⟩]
      rw [ih (start + (chunkSize - overlap)) (by omega)]
      simp [sliceAt]
    · rw [if_neg hlt, dif_neg (by tauto)]
      simp

/-- For valid parameters the top-level `chunkText` terminates and produces
exactly the slices described by `chunkRanges`. -/
theorem chunkText_eq_ranges (text : List Char) (chunkSize overlap : Nat)
    (h : overlap < chunkSize) :
    chunkText text chunkSize overlap =
      some ((chunkRanges text.length chunkSize overlap).map (sliceAt text)) :=
  chunkTextGo_eq_ranges text chunkSize overlap h (text.length + 1) 0 (by omega)

theorem chunkRangesFrom_cover (len chunkSize overlap : Nat)
    (h : overlap < chunkSize) :
    ∀ n start, len - start ≤ n → ∀ p, start ≤ p → p < len →
      ∃ r ∈ chunkRangesFrom len chunkSize overlap start,
        r.1 ≤ p ∧ p < r.1 + r.2 := by
  intro n
  induction n with
  | zero => intro start hn p hsp hp; omega
  | succ n ih =>
    intro start hn p hsp hp
    have hlt : start < len := lt_of_le_of_lt hsp hp
    rw [chunkRangesFrom, dif_pos ⟨by omega, hlt⟩]
    by_cases hcase : p < start + chunkSize
    · exact ⟨(start, min (start + chunkSize) len - start),
        List.mem_cons_self _ _, hsp, by omega⟩
    · obtain ⟨r, hr, h1, h2⟩ :=
        ih (start + (chunkSize - overlap)) (by omega) p (by omega) hp
      exact ⟨r, List.mem_cons_of_mem _ hr, h1, h2⟩

/-- Every range the chunker loop walks through is nonempty, at most
`chunkSize` long, and stays inside the text. -/
theorem chunkRangesFrom_bounds (len chunkSize overlap : Nat) :
    ∀ n start, len - start ≤ n →
      ∀ r ∈ chunkRangesFrom len chunkSize overlap start,
        0 < r.2 ∧ r.2 ≤ chunkSize ∧ r.1 + r.2 ≤ len := by
  intro n
  induction n with
  | zero =>
    intro start hn r hr
    rw [chunkRangesFrom] at hr
    rcases Nat.lt_or_ge start len with hlt | hge
    · omega
    · rw [dif_neg (by omega)] at hr
      simp at hr
  | succ n ih =>
    intro start hn r hr
    rw [chunkRangesFrom] at hr
    by_cases hc : 0 < chunkSize - overlap ∧ start < len
    · rw [dif_pos hc] at hr
      rcases List.mem_cons.1 hr with heq | htail
      · subst heq
        refine ⟨by omega, by omega, by omega⟩
      · exact ih (start + (chunkSize - overlap)) (by omega) r htail
    · rw [dif_neg hc] at hr
      simp at hr

end Ingest

set_option maxRecDepth 4000 in
theorem mauText_length : mauText.length = 660 := by decide

/-! ## Claim theorems about the chunker -/

set_option maxRecDepth 8000 in
/-- C2 counterexample: on the 660-character scenario input with
`chunkSize = 300`, `overlap = 50`, the three produced chunks have lengths
`[300, 300, 160]`, not `[300, 300, 60]` as the claim states (the last chunk
starts at offset 500 and runs to the end of the 660-character text). -/
theorem mau_last_chunk_has_length_160 :
    (Ingest.chunkText mauText 300 50).map (List.map List.length) =
      some [300, 300, 160]
    ∧ (Ingest.chunkText mauText 300 50).map (List.map List.length) ≠
      some [300, 300, 60] := by
  constructor
  · decide
  · decide

set_option maxRecDepth 8000 in
/-- C2 (amended): for the input string `"Mauritius has beautiful beaches. "`
repeated 20 times (length 660), chunking with `size = 300`, `overlap = 50`
produces exactly 3 chunks, starting at offsets 0, 250, 500, with lengths
`[300, 300, 160]`. -/
theorem mau_chunking_scenario :
    Ingest.chunkText mauText 300 50 =
      some [mauText.take 300, (mauText.drop 250).take 300,
            (mauText.drop 500).take 160]
    ∧ (Ingest.chunkText mauText 300 50).map (List.map List.length) =
      some [300, 300, 160] := by
  constructor
  · decide
  · decide

/-- C5: for every text and every valid `chunkSize > overlap ≥ 0`, `chunkText`
terminates with the slices described by `chunkRanges`, and those ranges cover
the whole interval `[0, text.length)`: every position of the input lies
inside at least one chunk's range. -/
theorem chunk_ranges_cover_text (text : List Char) (chunkSize overlap : Nat)
    (h : overlap < chunkSize) (p : Nat) (hp : p < text.length) :
    Ingest.chunkText text chunkSize overlap =
      some ((Ingest.chunkRanges text.length chunkSize overlap).map
        (Ingest.sliceAt text))
    ∧ ∃ r ∈ Ingest.chunkRanges text.length chunkSize overlap,
        r.1 ≤ p ∧ p < r.1 + r.2 :=
  ⟨Ingest.chunkText_eq_ranges text chunkSize overlap h,
   Ingest.chunkRangesFrom_cover text.length chunkSize overlap h
     text.length 0 (by omega) p (Nat.zero_le p) hp⟩

/-- Witness for C5 at the concrete input `"abc"`, `chunkSize = 2`,
`overlap = 1`, position `p = 2`. -/
theorem chunk_ranges_cover_text_wit :
    (1 < 2 ∧ 2 < ("abc".toList).length)
    ∧ (Ingest.chunkText "abc".toList 2 1 =
        some ((Ingest.chunkRanges ("abc".toList).length 2 1).map
          (Ingest.sliceAt "abc".toList))
      ∧ ∃ r ∈ Ingest.chunkRanges ("abc".toList).length 2 1,
          r.1 ≤ 2 ∧ 2 < r.1 + r.2) :=
  ⟨⟨by decide, by decide⟩,
   chunk_ranges_cover_text "abc".toList 2 1 (by decide) 2 (by decide)⟩

/-- C6 counterexample: two inputs shorter than the chunk size that do not
yield exactly one chunk.  The empty text (length 0 < 300) yields zero
chunks, and `"abcde"` (length 5 < 300) with `chunkSize = 300`,
`overlap = 299` (a valid `overlap < chunkSize` pair) yields five chunks. -/
theorem short_text_single_chunk_cex :
    Ingest.chunkText [] 300 50 = some []
    ∧ (Ingest.chunkText "abcde".toList 300 299).map List.length = some 5 := by
  constructor
  · decide
  · decide

/-- C6 (amended): for every nonempty text whose length is at most
`chunkSize - overlap`, `chunkText` yields exactly one chunk, and that chunk
equals the whole input text.  (The empty text yields zero chunks, and a text
whose length lies strictly between `chunkSize - overlap` and `chunkSize`
yields more than one chunk, so both restrictions are necessary.) -/
theorem short_text_single_chunk (text : List Char) (chunkSize overlap : Nat)
    (h1 : 0 < text.length) (h2 : text.length + overlap ≤ chunkSize) :
    Ingest.chunkText text chunkSize overlap = some [text] := by
  rw [Ingest.chunkText_eq_ranges text chunkSize overlap (by omega)]
  rw [Ingest.chunkRanges, Ingest.chunkRangesFrom, dif_pos ⟨by omega, h1⟩]
  rw [Ingest.chunkRangesFrom, dif_neg (by omega)]
  have hmin : min (0 + chunkSize) text.length - 0 = text.length := by omega
  simp only [List.map_cons, List.map_nil, hmin, Ingest.sliceAt,
    List.drop_zero, List.take_length]

/-- Witness for C6 (amended) at the concrete input `"ab"`,
`chunkSize = 300`, `overlap = 50`. -/
theorem short_text_single_chunk_wit :
    (0 < ("ab".toList).length ∧ ("ab".toList).length + 50 ≤ 300)
    ∧ Ingest.chunkText "ab".toList 300 50 = some ["ab".toList] :=
  ⟨⟨by decide, by decide⟩,
   short_text_single_chunk "ab".toList 300 50 (by decide) (by decide)⟩

/-- C7: the source `chunkText` performs no validation of
`overlap < chunkSize`.  On the failing input `text = "a"`,
`chunkSize = overlap = 2`, the cursor advances by `2 - 2 = 0` each
iteration and the JS `while` loop never terminates: the fuel-indexed
embedding of the loop returns `none` (non-termination) for every fuel
bound, instead of rejecting the call with an error as the claim states. -/
theorem chunker_overlap_eq_size_loops_forever :
    (∀ fuel, Ingest.chunkTextGo "a".toList 2 2 fuel 0 = none)
    ∧ Ingest.chunkText "a".toList 2 2 = none := by
  constructor
  · intro fuel
    induction fuel with
    | zero => rfl
    | succ n ih =>
      rw [Ingest.chunkTextGo, if_pos (by decide)]
      have h0 : (0 : Nat) + (2 - 2) = 0 := by decide
      rw [h0, ih]
      rfl
  · decide

/-- C10: for every text and every valid `chunkSize > overlap ≥ 0`,
`chunkText` terminates and every produced chunk is a nonempty string of
length at most `chunkSize`. -/
theorem chunks_nonempty_and_bounded (text : List Char)
    (chunkSize overlap : Nat) (h : overlap < chunkSize) :
    ∃ l, Ingest.chunkText text chunkSize overlap = some l ∧
      ∀ c ∈ l, c ≠ [] ∧ c.length ≤ chunkSize := by
  refine ⟨_, Ingest.chunkText_eq_ranges text chunkSize overlap h, ?_⟩
  intro c hc
  rw [List.mem_map] at hc
  obtain ⟨r, hr, rfl⟩ := hc
  obtain ⟨h1, h2, h3⟩ := Ingest.chunkRangesFrom_bounds text.length chunkSize
    overlap text.length 0 (by omega) r hr
  have hlen : (Ingest.sliceAt text r).length = r.2 := by
    simp only [Ingest.sliceAt, List.length_take, List.length_drop]
    omega
  constructor
  · intro hnil
    rw [hnil] at hlen
    simp at hlen
    omega
  · omega

/-- Witness for C10 at the concrete input `"abc"`, `chunkSize = 2`,
`overlap = 1`. -/
theorem chunks_nonempty_and_bounded_wit :
    1 < 2
    ∧ ∃ l, Ingest.chunkText "abc".toList 2 1 = some l ∧
        ∀ c ∈ l, c ≠ [] ∧ c.length ≤ 2 :=
  ⟨by decide, chunks_nonempty_and_bounded "abc".toList 2 1 (by decide)⟩

/-! ## Support lemmas for cosine similarity -/

theorem sumSq_nonneg {K : Type} [LinearOrderedField K] (v : List K) :
    0 ≤ sumSq v := by
  induction v with
  | nil => simp [sumSq]
  | cons a as ih =>
    rw [sumSq]
    have : 0 ≤ a * a := mul_self_nonneg a
    linarith

theorem sumSq_ne_zero {K : Type} [LinearOrderedField K] (v : List K)
    (hv : ∃ x ∈ v, x ≠ 0) : sumSq v ≠ 0 := by
  induction v with
  | nil => simp at hv
  | cons a as ih =>
    rw [sumSq]
    rcases hv with ⟨x, hx, hxne⟩
    rcases List.mem_cons.1 hx with rfl | hmem
    · have h1 : 0 < x * x := mul_self_pos.mpr hxne
      have h2 : 0 ≤ sumSq as := sumSq_nonneg as
      linarith
    · have h1 : sumSq as ≠ 0 := ih ⟨x, hmem, hxne⟩
      have h2 : 0 ≤ sumSq as := sumSq_nonneg as
      have h3 : 0 ≤ a * a := mul_self_nonneg a
      intro hcontra
      apply h1
      linarith

theorem dotJS_self {K : Type} [LinearOrderedField K] (v : List K) :
    Search.dotJS v v = sumSq v := by
  induction v with
  | nil => rfl
  | cons a as ih => rw [Search.dotJS, sumSq, ih]

/-! ## Claim theorems about cosine similarity (C8) -/

/-- C8 counterexample: the `cosineSimilarity` of src/ingest_local.mjs has
no zero-magnitude guard.  On the zero vector `[0]`, paired with itself,
both magnitudes are `0` and the division `0 / 0` evaluates to IEEE `NaN`
(modelled `none`), not to `0` as the claim states. -/
theorem cosine_local_zero_vector_nan :
    IngestLocal.cosineSimilarity Real.sqrt [(0 : ℝ)] [(0 : ℝ)] = none
    ∧ (none : Option ℝ) ≠ some 0 := by
  constructor
  · simp [IngestLocal.cosineSimilarity, IngestLocal.dotLocal, sumSq,
      Real.sqrt_zero]
  · simp

/-- C8 (amended): the `cosineSimilarity` of src/search.js (a total
function — it cannot raise) returns `0` whenever either argument has zero
magnitude, and returns exactly `1` on any nonzero vector paired with
itself (in the idealized exact-arithmetic model of JS floats); the
`cosineSimilarity` variant of src/ingest_local.mjs lacks the zero guard
and produces a non-finite value (`NaN`, modelled `none`) instead of `0`
when either magnitude is zero.  `sqrt` is any function with the defining
property of `Math.sqrt` on nonnegative inputs. -/
theorem cosine_similarity_zero_guard_and_self {K : Type}
    [LinearOrderedField K] [DecidableEq K] (sqrt : K → K)
    (hsq : ∀ x : K, 0 ≤ x → sqrt x * sqrt x = x) (a b v : List K)
    (hza : sqrt (sumSq a) = 0) (hv : ∃ x ∈ v, x ≠ 0) :
    Search.cosineSimilarity sqrt a b = 0
    ∧ Search.cosineSimilarity sqrt b a = 0
    ∧ Search.cosineSimilarity sqrt v v = 1
    ∧ IngestLocal.cosineSimilarity sqrt a b = none := by
  refine ⟨?_, ?_, ?_, ?_⟩
  · simp [Search.cosineSimilarity, hza]
  · simp [Search.cosineSimilarity, hza]
  · have hS : sumSq v ≠ 0 := sumSq_ne_zero v hv
    have hSnn : 0 ≤ sumSq v := sumSq_nonneg v
    have hmul : sqrt (sumSq v) * sqrt (sumSq v) = sumSq v := hsq _ hSnn
    have hne : sqrt (sumSq v) ≠ 0 := by
      intro h0
      rw [h0, mul_zero] at hmul
      exact hS hmul.symm
    rw [Search.cosineSimilarity]
    simp only [if_neg (by tauto : ¬(sqrt (sumSq v) = 0 ∨ sqrt (sumSq v) = 0))]
    rw [dotJS_self, hmul, div_self hS]
  · rw [IngestLocal.cosineSimilarity]
    rcases hdot : IngestLocal.dotLocal a b with _ | d
    · rfl
    · simp [hza]

/-- Witness for C8 (amended) over `ℝ` with `Math.sqrt := Real.sqrt`, at the
zero vector `[0]` and the nonzero vector `[1]`. -/
theorem cosine_similarity_zero_guard_and_self_wit :
    ((∀ x : ℝ, 0 ≤ x → Real.sqrt x * Real.sqrt x = x)
      ∧ Real.sqrt (sumSq [(0 : ℝ)]) = 0 ∧ ∃ x ∈ [(1 : ℝ)], x ≠ 0)
    ∧ (Search.cosineSimilarity Real.sqrt [(0 : ℝ)] [(1 : ℝ)] = 0
      ∧ Search.cosineSimilarity Real.sqrt [(1 : ℝ)] [(0 : ℝ)] = 0
      ∧ Search.cosineSimilarity Real.sqrt [(1 : ℝ)] [(1 : ℝ)] = 1
      ∧ IngestLocal.cosineSimilarity Real.sqrt [(0 : ℝ)] [(1 : ℝ)] = none) :=
  ⟨⟨fun x hx => Real.mul_self_sqrt hx,
    by simp [sumSq, Real.sqrt_zero],
    ⟨1, by simp, one_ne_zero⟩⟩,
   cosine_similarity_zero_guard_and_self Real.sqrt
     (fun x hx => Real.mul_self_sqrt hx) [0] [1] [1]
     (by simp [sumSq, Real.sqrt_zero]) ⟨1, by simp, one_ne_zero⟩⟩

/-! ## Support lemmas for the formatter -/

theorem string_toList_append (a b : String) :
    (a ++ b).toList = a.toList ++ b.toList := by
  cases a
  cases b
  rfl

theorem formatContext_singleton (h : Retrieval.SearchHit) :
    Retrieval.formatContextForPrompt [h] = Retrieval.hitBlock 0 h := rfl

/-! ## Claim theorem about the formatter (C9) -/

/-- C9: `formatContextForPrompt` applied to the empty hit list returns the
empty string, and applied to a single hit returns a string containing that
hit's title and that hit's content verbatim as substrings (rendered here
as: the character list of the output has the title's and the content's
character lists as contiguous sublists). -/
theorem format_context_empty_and_verbatim (h : Retrieval.SearchHit)
    (t c : String) (ht : h.title = some t) (hc : h.content = some c) :
    Retrieval.formatContextForPrompt [] = ""
    ∧ (∃ s u, s ++ t.toList ++ u =
        (Retrieval.formatContextForPrompt [h]).toList)
    ∧ (∃ s u, s ++ c.toList ++ u =
        (Retrieval.formatContextForPrompt [h]).toList) := by
  refine ⟨rfl, ?_, ?_⟩
  · rw [formatContext_singleton, Retrieval.hitBlock, ht]
    by_cases hte : t = ""
    · refine ⟨[], (Retrieval.hitBlock 0 h).toList, ?_⟩
      subst hte
      simp [Retrieval.hitBlock, ht]
    · rw [Retrieval.titleDisplay, if_neg hte]
      refine ⟨("Source " ++ toString (0 + 1) ++ " — ").toList,
        (" (chunk " ++ Retrieval.chunkIndexDisplay h.chunkIndex ++
          ", score " ++ Retrieval.scoreToFixed3 h.score ++ ")" ++ "\n" ++
          Retrieval.contentDisplay h.content).toList, ?_⟩
      simp [string_toList_append, List.append_assoc]
  · rw [formatContext_singleton, Retrieval.hitBlock, hc]
    refine ⟨("Source " ++ toString (0 + 1) ++ " — " ++
        Retrieval.titleDisplay h.title ++ " (chunk " ++
        Retrieval.chunkIndexDisplay h.chunkIndex ++ ", score " ++
        Retrieval.scoreToFixed3 h.score ++ ")" ++ "\n").toList, [], ?_⟩
    rw [Retrieval.contentDisplay]
    simp [string_toList_append, List.append_assoc]

/-- Witness for C9 at a concrete hit with title `"T"` and content `"C"`. -/
theorem format_context_empty_and_verbatim_wit :
    ((Retrieval.SearchHit.mk (some "T") (some "C") (some 0) (1 / 2)).title =
        some "T"
      ∧ (Retrieval.SearchHit.mk (some "T") (some "C") (some 0)
          (1 / 2)).content = some "C")
    ∧ (Retrieval.formatContextForPrompt [] = ""
      ∧ (∃ s u, s ++ "T".toList ++ u =
          (Retrieval.formatContextForPrompt
            [Retrieval.SearchHit.mk (some "T") (some "C") (some 0)
              (1 / 2)]).toList)
      ∧ (∃ s u, s ++ "C".toList ++ u =
          (Retrieval.formatContextForPrompt
            [Retrieval.SearchHit.mk (some "T") (some "C") (some 0)
              (1 / 2)]).toList)) :=
  ⟨⟨rfl, rfl⟩,
   format_context_empty_and_verbatim
     (Retrieval.SearchHit.mk (some "T") (some "C") (some 0) (1 / 2))
     "T" "C" rfl rfl⟩

/-! ## Claim theorem about the retrieval fallback chain (C1) -/

/-- C1: on a query whose vector search returns zero hits, `queryCollection`
attempts the text-filter search next; it reaches the local brute-force
fallback exactly when the text filter also produced zero hits; and when
the local embedding store is absent as well, the run ends with an empty
sequence of locally ranked hits and no caught (or raised) error. -/
theorem retrieval_fallback_chain {H : Type} (sqrt : ℚ → ℚ)
    (env : Search.SearchEnv H) (hvec : env.vectorResult = Except.ok []) :
    (Search.queryCollection sqrt env).1.take 2 =
      [Search.Tier.vectorSearch, Search.Tier.textFilter]
    ∧ (Search.Tier.localFallback ∈ (Search.queryCollection sqrt env).1 ↔
        Search.textFilterSearch env = [])
    ∧ (Search.textFilterSearch env = [] → env.localStore = none →
        Search.queryCollection sqrt env =
          ([Search.Tier.vectorSearch, Search.Tier.textFilter,
            Search.Tier.localFallback],
            Search.RunOutcome.localRanked [])) := by
  by_cases hemp : Search.textFilterSearch env = []
  · rcases hloc : Search.queryLocalEmbeddings sqrt env 5 with e | ranked
    · refine ⟨?_, ?_, ?_⟩
      · simp [Search.queryCollection, hvec, hemp, hloc]
      · simp [Search.queryCollection, hvec, hemp, hloc]
      · intro _ hstore
        rw [Search.queryLocalEmbeddings, hstore] at hloc
        exact absurd hloc (by simp)
    · refine ⟨?_, ?_, ?_⟩
      · simp [Search.queryCollection, hvec, hemp, hloc]
      · simp [Search.queryCollection, hvec, hemp, hloc]
      · intro _ hstore
        rw [Search.queryLocalEmbeddings, hstore] at hloc
        cases hloc
        simp [Search.queryCollection, hvec, hemp,
          Search.queryLocalEmbeddings, hstore]
  · have hlen : (Search.textFilterSearch env).length ≠ 0 := by
      intro h0
      exact hemp (List.length_eq_zero.mp h0)
    refine ⟨?_, ?_, ?_⟩
    · simp [Search.queryCollection, hvec, hlen]
    · simp [Search.queryCollection, hvec, hlen, hemp]
    · intro hcontra
      exact absurd hcontra hemp

/-- Witness for C1 at a concrete environment: zero dense hits, zero
text-filter hits, no local store. -/
theorem retrieval_fallback_chain_wit :
    ((Search.SearchEnv.mk (H := Nat) (Except.ok []) (Except.ok []) none
        (Except.ok [])).vectorResult = Except.ok [])
    ∧ ((Search.queryCollection id
          (Search.SearchEnv.mk (H := Nat) (Except.ok []) (Except.ok []) none
            (Except.ok []))).1.take 2 =
        [Search.Tier.vectorSearch, Search.Tier.textFilter]
      ∧ (Search.Tier.localFallback ∈
          (Search.queryCollection id
            (Search.SearchEnv.mk (H := Nat) (Except.ok []) (Except.ok [])
              none (Except.ok []))).1 ↔
          Search.textFilterSearch
            (Search.SearchEnv.mk (H := Nat) (Except.ok []) (Except.ok [])
              none (Except.ok [])) = [])
      ∧ (Search.textFilterSearch
            (Search.SearchEnv.mk (H := Nat) (Except.ok []) (Except.ok [])
              none (Except.ok [])) = [] →
          (Search.SearchEnv.mk (H := Nat) (Except.ok []) (Except.ok []) none
            (Except.ok [])).localStore = none →
          Search.queryCollection id
            (Search.SearchEnv.mk (H := Nat) (Except.ok []) (Except.ok [])
              none (Except.ok [])) =
            ([Search.Tier.vectorSearch, Search.Tier.textFilter,
              Search.Tier.localFallback],
              Search.RunOutcome.localRanked []))) :=
  ⟨rfl,
   retrieval_fallback_chain id
     (Search.SearchEnv.mk (Except.ok []) (Except.ok []) none (Except.ok []))
     rfl⟩

/-! ## Support lemmas for the ingestion chunk loop -/

theorem ingestChunksFrom_spec (embed : String → Except String (List ℚ))
    (title : String) :
    ∀ (chunks : List String) (i : Nat) (st : Ingest.IngestState),
      (Ingest.ingestChunksFrom embed title i st chunks).counter =
        st.counter + chunks.countP (Ingest.embedOk embed)
      ∧ (Ingest.ingestChunksFrom embed title i st chunks).failed =
        st.failed + chunks.countP (fun c => !(Ingest.embedOk embed c))
      ∧ (Ingest.ingestChunksFrom embed title i st chunks).points.map
          Ingest.QdrantPoint.content =
        st.points.map Ingest.QdrantPoint.content ++
          chunks.filter (Ingest.embedOk embed) := by
  intro chunks
  induction chunks with
  | nil => intro i st; simp [Ingest.ingestChunksFrom]
  | cons chunk rest ih =>
    intro i st
    rw [Ingest.ingestChunksFrom]
    rcases hemb : embed chunk with e | v
    · have hok : Ingest.embedOk embed chunk = false := by
        rw [Ingest.embedOk, hemb]
      obtain ⟨ihc, ihf, ihp⟩ :=
        ih (i + 1) { st with failed := st.failed + 1 }
      refine ⟨?_, ?_, ?_⟩
      · rw [ihc]
        simp [List.countP_cons, hok]
      · rw [ihf]
        simp [List.countP_cons, hok]
        omega
      · rw [ihp]
        simp [List.filter_cons, hok]
    · have hok : Ingest.embedOk embed chunk = true := by
        rw [Ingest.embedOk, hemb]
      obtain ⟨ihc, ihf, ihp⟩ :=
        ih (i + 1)
          { counter := st.counter + 1
            points := st.points ++
              [{ id := st.counter, vector := v, title := title,
                 content := chunk, chunkIndex := i }]
            failed := st.failed }
      refine ⟨?_, ?_, ?_⟩
      · rw [ihc]
        simp [List.countP_cons, hok]
        omega
      · rw [ihf]
        simp [List.countP_cons, hok]
      · rw [ihp]
        simp [List.filter_cons, hok]

theorem staged_points_aux (embed : String → Except String (List ℚ))
    (title : String) :
    ∀ (chunks : List String) (i : Nat) (st : Ingest.IngestState),
      (∀ q ∈ st.points, embed q.content = Except.ok q.vector) →
      ∀ q ∈ (Ingest.ingestChunksFrom embed title i st chunks).points,
        embed q.content = Except.ok q.vector := by
  intro chunks
  induction chunks with
  | nil => intro i st hst q hq; exact hst q hq
  | cons chunk rest ih =>
    intro i st hst q hq
    rw [Ingest.ingestChunksFrom] at hq
    rcases hemb : embed chunk with e | v
    · rw [hemb] at hq
      exact ih (i + 1) { st with failed := st.failed + 1 } hst q hq
    · rw [hemb] at hq
      refine ih (i + 1) _ ?_ q hq
      intro q' hq'
      rcases List.mem_append.1 hq' with hmem | hmem
      · exact hst q' hmem
      · rcases List.mem_singleton.1 hmem with rfl
        exact hemb

/-! ## Claim theorems about the ingestion pipeline (C3, C4) -/

/-- C3: when the embedding call fails on exactly one chunk out of ten, the
ingestion chunk loop is not aborted: the other nine chunks are embedded and
staged in order, the final success counter is 9, exactly one per-chunk
failure is logged, and the nine staged points are uploaded in the bulk
upload call. -/
theorem ingest_partial_failure (embed : String → Except String (List ℚ))
    (title : String) (pre post : List String) (bad : String)
    (hpre : ∀ c ∈ pre, Ingest.embedOk embed c = true)
    (hbad : Ingest.embedOk embed bad = false)
    (hpost : ∀ c ∈ post, Ingest.embedOk embed c = true)
    (hnine : pre.length + post.length = 9) :
    (pre ++ bad :: post).length = 10
    ∧ (Ingest.ingestDocument embed title (pre ++ bad :: post)).counter = 9
    ∧ (Ingest.ingestDocument embed title (pre ++ bad :: post)).failed = 1
    ∧ (Ingest.ingestDocument embed title (pre ++ bad :: post)).points.map
        Ingest.QdrantPoint.content = pre ++ post
    ∧ (Ingest.ingestDocument embed title
        (pre ++ bad :: post)).points.length = 9
    ∧ Ingest.uploadPoints
        (Ingest.ingestDocument embed title (pre ++ bad :: post)).points =
      some (Ingest.ingestDocument embed title (pre ++ bad :: post)).points := by
  obtain ⟨hc, hf, hp⟩ :=
    ingestChunksFrom_spec embed title (pre ++ bad :: post) 0 ⟨0, [], 0⟩
  have hcount : (pre ++ bad :: post).countP (Ingest.embedOk embed) = 9 := by
    rw [List.countP_append, List.countP_cons,
      List.countP_eq_length.mpr hpre, List.countP_eq_length.mpr hpost]
    simp [hbad]
    omega
  have hfcount :
      (pre ++ bad :: post).countP (fun c => !(Ingest.embedOk embed c)) = 1 := by
    rw [List.countP_append, List.countP_cons]
    have hz1 : pre.countP (fun c => !(Ingest.embedOk embed c)) = 0 := by
      rw [List.countP_eq_zero]
      intro a ha
      simp [hpre a ha]
    have hz2 : post.countP (fun c => !(Ingest.embedOk embed c)) = 0 := by
      rw [List.countP_eq_zero]
      intro a ha
      simp [hpost a ha]
    simp [hz1, hz2, hbad]
  have hfilter :
      (pre ++ bad :: post).filter (Ingest.embedOk embed) = pre ++ post := by
    rw [List.filter_append, List.filter_cons, List.filter_eq_self.mpr hpre,
      List.filter_eq_self.mpr hpost]
    simp [hbad]
  have hmap : (Ingest.ingestDocument embed title
      (pre ++ bad :: post)).points.map Ingest.QdrantPoint.content =
      pre ++ post := by
    rw [Ingest.ingestDocument, hp, hfilter]
    rfl
  have hplen : (Ingest.ingestDocument embed title
      (pre ++ bad :: post)).points.length = 9 := by
    have := congrArg List.length hmap
    rw [List.length_map, List.length_append] at this
    omega
  refine ⟨by simp; omega, ?_, ?_, hmap, hplen, ?_⟩
  · rw [Ingest.ingestDocument, hc, hcount]
  · rw [Ingest.ingestDocument, hf, hfcount]
  · rw [Ingest.uploadPoints, if_pos (by omega)]

/-- Witness for C3: ten concrete chunks `"c0" .. "c9"` where only the
embedding call on `"c3"` fails. -/
theorem ingest_partial_failure_wit :
    ((∀ c ∈ ["c0", "c1", "c2"],
        Ingest.embedOk
          (fun s => if s = "c3" then Except.error "boom" else Except.ok [1])
          c = true)
      ∧ Ingest.embedOk
          (fun s => if s = "c3" then Except.error "boom" else Except.ok [1])
          "c3" = false
      ∧ (∀ c ∈ ["c4", "c5", "c6", "c7", "c8", "c9"],
          Ingest.embedOk
            (fun s => if s = "c3" then Except.error "boom" else Except.ok [1])
            c = true))
    ∧ ((["c0", "c1", "c2"] ++ "c3" :: ["c4", "c5", "c6", "c7", "c8", "c9"]).length = 10
      ∧ (Ingest.ingestDocument
          (fun s => if s = "c3" then Except.error "boom" else Except.ok [1])
          "t" (["c0", "c1", "c2"] ++ "c3" ::
            ["c4", "c5", "c6", "c7", "c8", "c9"])).counter = 9
      ∧ (Ingest.ingestDocument
          (fun s => if s = "c3" then Except.error "boom" else Except.ok [1])
          "t" (["c0", "c1", "c2"] ++ "c3" ::
            ["c4", "c5", "c6", "c7", "c8", "c9"])).failed = 1
      ∧ (Ingest.ingestDocument
          (fun s => if s = "c3" then Except.error "boom" else Except.ok [1])
          "t" (["c0", "c1", "c2"] ++ "c3" ::
            ["c4", "c5", "c6", "c7", "c8", "c9"])).points.map
          Ingest.QdrantPoint.content =
          ["c0", "c1", "c2"] ++ ["c4", "c5", "c6", "c7", "c8", "c9"]
      ∧ (Ingest.ingestDocument
          (fun s => if s = "c3" then Except.error "boom" else Except.ok [1])
          "t" (["c0", "c1", "c2"] ++ "c3" ::
            ["c4", "c5", "c6", "c7", "c8", "c9"])).points.length = 9
      ∧ Ingest.uploadPoints
          (Ingest.ingestDocument
            (fun s => if s = "c3" then Except.error "boom" else Except.ok [1])
            "t" (["c0", "c1", "c2"] ++ "c3" ::
              ["c4", "c5", "c6", "c7", "c8", "c9"])).points =
        some (Ingest.ingestDocument
            (fun s => if s = "c3" then Except.error "boom" else Except.ok [1])
            "t" (["c0", "c1", "c2"] ++ "c3" ::
              ["c4", "c5", "c6", "c7", "c8", "c9"])).points) :=
  ⟨⟨by decide, by decide, by decide⟩,
   ingest_partial_failure
     (fun s => if s = "c3" then Except.error "boom" else Except.ok [1]) "t"
     ["c0", "c1", "c2"] ["c4", "c5", "c6", "c7", "c8", "c9"] "c3"
     (by decide) (by decide) (by decide) (by decide)⟩

/-- C4 counterexample: the ingestion loop performs no dimension check.  An
embedding call returning the 3-dimensional vector `[1, 2, 3]` (length 3,
not 768) has its chunk staged anyway, with the wrong-length vector stored
verbatim and no failure logged. -/
theorem wrong_dimension_vector_is_staged :
    ((Ingest.ingestDocument (fun _ => Except.ok [1, 2, 3]) "t"
        ["a"]).points.map Ingest.QdrantPoint.vector = [[1, 2, 3]])
    ∧ ([1, 2, 3] : List ℚ).length ≠ 768
    ∧ (Ingest.ingestDocument (fun _ => Except.ok [1, 2, 3]) "t"
        ["a"]).failed = 0 :=
  ⟨rfl, by decide, rfl⟩

/-- C4 (amended): ingestion performs no vector-dimension validation at all:
every staged point carries verbatim whatever vector the embedding call
returned for its chunk (whatever its length), and a chunk is skipped only
when the embedding call itself raises. -/
theorem staged_vector_is_embed_result (embed : String → Except String (List ℚ))
    (title : String) (chunks : List String) (p : Ingest.QdrantPoint)
    (hp : p ∈ (Ingest.ingestDocument embed title chunks).points) :
    embed p.content = Except.ok p.vector := by
  refine staged_points_aux embed title chunks 0 ⟨0, [], 0⟩ ?_ p hp
  intro q hq
  simp at hq

/-- Witness for C4 (amended) at one concrete chunk whose embedding call
returns the 1-dimensional vector `[5]`. -/
theorem staged_vector_is_embed_result_wit :
    (Ingest.QdrantPoint.mk 0 [5] "t" "a" 0 ∈
      (Ingest.ingestDocument (fun _ => Except.ok [5]) "t" ["a"]).points)
    ∧ (fun (_ : String) => Except.ok (ε := String) [(5 : ℚ)])
        (Ingest.QdrantPoint.mk 0 [5] "t" "a" 0).content =
      Except.ok (Ingest.QdrantPoint.mk 0 [5] "t" "a" 0).vector :=
  ⟨by decide,
   staged_vector_is_embed_result (fun _ => Except.ok [5]) "t" ["a"]
     (Ingest.QdrantPoint.mk 0 [5] "t" "a" 0) (by decide)⟩
